import Mathlib

/-
Verification of the AI-Hospital voice-report pipeline.

Shallow embedding of `backend/app/services/voice_service.py`,
`backend/app/services/report_service.py` and the Pydantic schemas in
`backend/app/schemas/report.py`.  Python floats are modelled as rationals,
`raise HTTPException` as an `Except HTTPError` result, and the async
database session / on-disk upload directory as explicit state (a list of
report rows, a list of stored file paths) threaded through the functions.
-/

namespace AIHospital

/-- An HTTP error response, as raised by `fastapi.HTTPException`:
a status code plus a human-readable detail string. -/
structure HTTPError where
  statusCode : Nat
  detail : String
deriving Repr, DecidableEq

/-- Model of `fastapi.UploadFile` as the voice service consumes it: the
client-supplied filename, the declared size when knowable (`None` models a
missing/falsy `size` attribute, and `some 0` is treated as unknowable just as
Python truthiness does), and the number of bytes actually delivered by the
stream. -/
structure UploadFile where
  filename : String
  size : Option Nat
  dataSize : Nat
deriving Repr, DecidableEq

/-- Class constant `VoiceService.ALLOWED_FORMATS` — the list actually
consulted by `validate_audio_file` (note: it includes `flac`, unlike
`settings.ALLOWED_AUDIO_FORMATS`). -/
def ALLOWED_FORMATS : List String := ["wav", "mp3", "m4a", "ogg", "webm", "flac"]

/-- Class constant `VoiceService.MAX_FILE_SIZE = 10 * 1024 * 1024` (10 MiB). -/
def MAX_FILE_SIZE : Nat := 10 * 1024 * 1024

/-- Python `str.split(sep)` for a one-character separator, on the character
list of the string: splits at every occurrence of `sep`, keeping empty
groups, and returns `[l]` when `sep` does not occur.  Always nonempty. -/
def splitOnChar (sep : Char) : List Char → List (List Char)
  | [] => [[]]
  | c :: cs =>
      match splitOnChar sep cs with
      | [] => [[c]]
      | g :: gs => if c = sep then [] :: g :: gs else (c :: g) :: gs

/-- Python `file.filename.split(".")[-1].lower()`: everything after the last
dot (the whole name when no dot occurs, since `str.split` returns the whole
string as a one-element list), lower-cased character by character as
`str.lower` does on ASCII filenames. -/
def fileExtension (filename : String) : String :=
  String.mk (((splitOnChar '.' filename.data).getLastD []).map Char.toLower)

/-- Source `VoiceService.validate_audio_file`: reject when the extension is outside
`ALLOWED_FORMATS` (HTTP 400, format message); otherwise, when a truthy size is
declared (`file.size` present and nonzero, per Python truthiness) and exceeds
`MAX_FILE_SIZE`, reject (HTTP 400, size message); otherwise accept. -/
def validate_audio_file (file : UploadFile) : Except HTTPError Unit :=
  if fileExtension file.filename ∉ ALLOWED_FORMATS then
    .error ⟨400, "invalid audio format"⟩
  else if file.size.getD 0 ≠ 0 ∧ file.size.getD 0 > MAX_FILE_SIZE then
    .error ⟨400, "file too large"⟩
  else .ok ()

/-- One Whisper segment as consumed by the service: `no_speech_prob` and `end`
are read with `dict.get`, so each may be absent. -/
structure Segment where
  no_speech_prob : Option ℚ
  endTime : Option ℚ
deriving Repr, DecidableEq

/-- The raw dictionary returned by `whisper.Model.transcribe`:
`result["text"]`, `result.get("language", ...)`, `result.get("segments", [])`. -/
structure WhisperResult where
  text : String
  language : Option String
  segments : List Segment
deriving Repr, DecidableEq

/-- The engine call `self.model.transcribe(...)` either yields a result
dictionary or raises (network / model / decode error). -/
inductive EngineOutcome where
  | ok (r : WhisperResult)
  | err (msg : String)
deriving Repr, DecidableEq

/-- Python `round(x, 2)` on our rational model of floats: round
`100 * x` to the nearest integer, ties to even (banker's rounding), then
divide by 100. -/
def round2 (q : ℚ) : ℚ :=
  let f : ℤ := ⌊q * 100⌋
  let frac : ℚ := q * 100 - f
  let n : ℤ :=
    if frac < 1/2 then f
    else if 1/2 < frac then f + 1
    else if f % 2 = 0 then f else f + 1
  (n : ℚ) / 100

/-- Python `s.get("no_speech_prob", 0.5)`. -/
def segNoSpeech (s : Segment) : ℚ := s.no_speech_prob.getD (1/2)

/-- The confidence computed inside `transcribe_audio`, before the final
two-decimal rounding: `1 - avg_no_speech` over the segments when any exist,
else the default `0.8`. -/
def localConfidence (segments : List Segment) : ℚ :=
  if segments.length ≠ 0 then
    1 - (segments.map segNoSpeech).sum / segments.length
  else 4/5

/-- Source `VoiceService._get_audio_duration_from_segments`: `None` for an empty
list; otherwise `round(last.get("end", 0), 2)` when that end value is truthy
(nonzero), `None` when it is `0` or absent. -/
def getAudioDurationFromSegments (segments : List Segment) : Option ℚ :=
  match segments.getLast? with
  | none => none
  | some last =>
      let duration : ℚ := last.endTime.getD 0
      if duration ≠ 0 then some (round2 duration) else none

/-- The normalized output of `transcribe_audio` (the fields of the returned
dict that the orchestrator consumes). -/
structure TranscriptionOutput where
  text : String
  confidence : ℚ
  duration : Option ℚ
  language : String
  segments_count : Nat
deriving Repr, DecidableEq

/-- Source `VoiceService.transcribe_audio`: run the engine; on any raised exception
wrap it as HTTP 500 "transcription failed"; on success strip the text, derive
confidence from `no_speech_prob` of the segments (default 0.8 with no
segments) rounded to two decimals, and the duration from the last segment. -/
def transcribe_audio (outcome : EngineOutcome) (language : String) :
    Except HTTPError TranscriptionOutput :=
  match outcome with
  | .err msg => .error ⟨500, "transcription failed: " ++ msg⟩
  | .ok r =>
      .ok { text := r.text.trim
            confidence := round2 (localConfidence r.segments)
            duration := getAudioDurationFromSegments r.segments
            language := r.language.getD language
            segments_count := r.segments.length }

/-- Information returned by `VoiceService.save_audio_file`. -/
structure SavedFileInfo where
  file_path : String
  file_size : Nat
  file_extension : String
deriving Repr, DecidableEq

/-- The unique on-disk name `f"{report_id}_{timestamp}.{file_extension}"`
built by `save_audio_file`. -/
def savedFilename (reportId timestamp : String) (file : UploadFile) : String :=
  reportId ++ "_" ++ timestamp ++ "." ++ fileExtension file.filename

/-- Source `VoiceService.save_audio_file`: write the stream in chunks under
`upload_dir / filename` and report the byte count actually written.  The
upload directory is modelled as the list of stored paths; the write appends
one path. -/
def save_audio_file (uploadDir timestamp : String) (file : UploadFile)
    (reportId : String) (store : List String) :
    SavedFileInfo × List String :=
  let path := uploadDir ++ "/" ++ savedFilename reportId timestamp file
  (⟨path, file.dataSize, fileExtension file.filename⟩, store ++ [path])

/-- The combined dictionary returned by `VoiceService.process_voice_report`. -/
structure VoiceResult where
  file_path : String
  file_size : Nat
  file_extension : String
  transcribed_text : String
  confidence : ℚ
  duration : Option ℚ
  language : String
deriving Repr, DecidableEq

/-- Source `VoiceService.process_voice_report`: validate, save, transcribe (with the
hard-coded language hint "fa"), combine.  The engine behaviour is a parameter
mapping the stored file path to the call's outcome.  The second component is
the upload-directory state after the call: unchanged when validation fails
(no file is created), extended by the stored file otherwise — also when
transcription then fails. -/
def process_voice_report (engine : String → EngineOutcome)
    (uploadDir timestamp : String) (file : UploadFile) (reportId : String)
    (store : List String) : Except HTTPError VoiceResult × List String :=
  match validate_audio_file file with
  | .error e => (.error e, store)
  | .ok () =>
      let (info, store') := save_audio_file uploadDir timestamp file reportId store
      match transcribe_audio (engine info.file_path) "fa" with
      | .error e => (.error e, store')
      | .ok t =>
          (.ok { file_path := info.file_path
                 file_size := info.file_size
                 file_extension := info.file_extension
                 transcribed_text := t.text
                 confidence := t.confidence
                 duration := t.duration
                 language := t.language }, store')

/-- Report status enum (`ReportStatus` in `models/report.py`). -/
inductive ReportStatus where
  | DRAFT | FINAL | REVIEWED | ARCHIVED
deriving Repr, DecidableEq

/-- Report type enum (`ReportType` in `models/report.py`). -/
inductive ReportType where
  | VOICE | TEXT | MIXED
deriving Repr, DecidableEq

/-- A row of the `reports` table, restricted to the columns the voice
pipeline and `update_report` touch. -/
structure Report where
  id : String
  nurse_id : String
  patient_name : String
  patient_national_id : Option String
  patient_file_number : String
  content : String
  notes : Option String
  report_type : ReportType
  status : ReportStatus
  is_transcribed : Bool
  audio_file_path : Option String
  audio_size : Option Nat
  audio_duration : Option ℚ
  transcription_confidence : Option ℚ
deriving Repr, DecidableEq

/-- The authenticated caller (`models/user.py`, the fields the report service
reads). -/
structure User where
  id : String
  is_admin : Bool
deriving Repr, DecidableEq

/-- Schema `schemas.report.VoiceReportCreate`. -/
structure VoiceReportCreate where
  patient_name : String
  patient_national_id : Option String
  patient_file_number : String
  notes : Option String
deriving Repr, DecidableEq

/-- The database session, modelled as the list of report rows. -/
abbrev ReportDB := List Report

/-- Source `ReportService.get_report_by_id`: `SELECT ... WHERE Report.id == report_id`,
`scalar_one_or_none()`. -/
def get_report_by_id (reportId : String) (db : ReportDB) : Option Report :=
  db.find? (fun r => r.id = reportId)

/-- Deterministic inputs the real system draws from the environment during
one `create_voice_report` run: the fresh UUID for the tentative row, the
timestamp used in the stored filename, the configured upload directory, and
the transcription engine's behaviour on each path. -/
structure PipelineEnv where
  freshId : String
  timestamp : String
  uploadDir : String
  engine : String → EngineOutcome

/-- The tentative row inserted by step 1 of `ReportService.create_voice_report`
(status DRAFT, type VOICE, empty content, not transcribed, no audio fields). -/
def tentativeReport (freshId : String) (rd : VoiceReportCreate) (user : User) :
    Report :=
  { id := freshId
    nurse_id := user.id
    patient_name := rd.patient_name
    patient_national_id := rd.patient_national_id
    patient_file_number := rd.patient_file_number
    content := ""
    notes := rd.notes
    report_type := .VOICE
    status := .DRAFT
    is_transcribed := false
    audio_file_path := none
    audio_size := none
    audio_duration := none
    transcription_confidence := none }

/-- Source `ReportService.create_voice_report`: insert the tentative row, run
`voice_service.process_voice_report` on it, then on success update the row's
content / audio / transcription fields in place and commit; on any exception
delete the tentative row and re-raise wrapped as HTTP 500
("خطا در پردازش فایل صوتی: ...").  Returns the call result together with the
final database and upload-directory states. -/
def create_voice_report (env : PipelineEnv) (audioFile : UploadFile)
    (rd : VoiceReportCreate) (user : User) (db : ReportDB)
    (store : List String) :
    Except HTTPError Report × ReportDB × List String :=
  let newReport := tentativeReport env.freshId rd user
  let db1 := db ++ [newReport]
  match process_voice_report env.engine env.uploadDir env.timestamp audioFile
      newReport.id store with
  | (.error e, store') =>
      (.error ⟨500, "voice processing failed: " ++ e.detail⟩,
       db1.filter (fun r => r.id ≠ newReport.id), store')
  | (.ok vr, store') =>
      let updated := { newReport with
        content := vr.transcribed_text
        audio_file_path := some vr.file_path
        audio_size := some vr.file_size
        audio_duration := vr.duration
        is_transcribed := true
        transcription_confidence := some vr.confidence }
      (.ok updated,
       db1.map (fun r => if r.id = newReport.id then updated else r), store')

/-- Schema `schemas.report.ReportUpdate`: every field optional; `none` models a
field absent from the payload (`exclude_unset=True`). -/
structure ReportUpdate where
  patient_name : Option String := none
  patient_national_id : Option String := none
  patient_file_number : Option String := none
  content : Option String := none
  notes : Option String := none
  status : Option ReportStatus := none
deriving Repr, DecidableEq

/-- The `setattr` loop of `update_report`: each field present in
`model_dump(exclude_unset=True)` overwrites the row's field verbatim. -/
def applyUpdate (r : Report) (u : ReportUpdate) : Report :=
  { r with
    patient_name := u.patient_name.getD r.patient_name
    patient_national_id :=
      match u.patient_national_id with
      | some v => some v
      | none => r.patient_national_id
    patient_file_number := u.patient_file_number.getD r.patient_file_number
    content := u.content.getD r.content
    notes :=
      match u.notes with
      | some v => some v
      | none => r.notes
    status := u.status.getD r.status }

/-- Source `ReportService.update_report`: 404 when the row is missing, 403 when the
caller is neither the authoring nurse nor an admin, otherwise apply every
field set in the payload and commit.  Returns the refreshed row and the new
database state. -/
def update_report (reportId : String) (u : ReportUpdate) (user : User)
    (db : ReportDB) : Except HTTPError (Report × ReportDB) :=
  match get_report_by_id reportId db with
  | none => .error ⟨404, "report not found"⟩
  | some report =>
      if report.nurse_id ≠ user.id ∧ user.is_admin = false then
        .error ⟨403, "not allowed to edit this report"⟩
      else
        let updated := applyUpdate report u
        .ok (updated, db.map (fun r => if r.id = reportId then updated else r))

/-- Modelled from the spec: the word count used by the remote-variant
confidence estimator — the number of whitespace-separated words of the text,
as Python `len(text.split())` yields on space-separated text (runs of spaces
produce empty groups, which are dropped). -/
def wordCount (text : String) : Nat :=
  ((splitOnChar ' ' text.data).filter (fun w => w ≠ [])).length

/-- Modelled from the spec: the remote-variant confidence estimator
(§4.4 of the spec; the cloud/OpenAI transcription service is not among the
files under src/, only its configuration keys are).  `estimate(text)`:
0.5 when the text is shorter than 10 characters; otherwise the mean of
`lengthScore = min(len(text)/100, 1)` and `wordScore = min(wordCount/20, 1)`,
clamped to [0.70, 0.98]. -/
def estimate (text : String) : ℚ :=
  if text.length < 10 then 1/2
  else
    let lengthScore : ℚ := min ((text.length : ℚ) / 100) 1
    let wordScore : ℚ := min ((wordCount text : ℚ) / 20) 1
    min (max ((lengthScore + wordScore) / 2) (70/100)) (98/100)

/-- Concrete Whisper result used as a test fixture: one segment with
`no_speech_prob = 0.1` and end timestamp `1.5`. -/
def sampleWhisper : WhisperResult :=
  ⟨" hello there ", some "fa", [⟨some (1/10), some (3/2)⟩]⟩

/-- Pipeline environment whose engine always raises. -/
def sampleEnvErr : PipelineEnv :=
  ⟨"rep-1", "20240101_000000", "uploads/audio", fun _ => .err "boom"⟩

/-- Pipeline environment whose engine always returns `sampleWhisper`. -/
def sampleEnvOk : PipelineEnv :=
  ⟨"rep-1", "20240101_000000", "uploads/audio", fun _ => .ok sampleWhisper⟩

/-- A well-formed wav upload fixture. -/
def sampleUpload : UploadFile := ⟨"note.wav", some 2048, 2048⟩

/-- An upload fixture with a disallowed extension. -/
def sampleTxtUpload : UploadFile := ⟨"note.txt", some 2048, 2048⟩

/-- Patient metadata fixture. -/
def sampleVoiceCreate : VoiceReportCreate := ⟨"Ali", none, "F-1", none⟩

/-- A non-admin nurse fixture. -/
def sampleNurse : User := ⟨"n1", false⟩

/-- An ARCHIVED text report owned by `sampleNurse`, used to exercise the
backward status transition in `update_report`. -/
def sampleArchived : Report :=
  { id := "r1", nurse_id := "n1", patient_name := "Ali",
    patient_national_id := none, patient_file_number := "F-1",
    content := "old report content", notes := none, report_type := .TEXT,
    status := .ARCHIVED, is_transcribed := false, audio_file_path := none,
    audio_size := none, audio_duration := none, transcription_confidence := none }

/-- An update payload that only moves the status back to DRAFT. -/
def sampleStatusUpdate : ReportUpdate := { status := some .DRAFT }

/-- The record `create_voice_report` produces on the `sampleEnvOk` /
`sampleUpload` run (confidence and duration left in unevaluated form). -/
def sampleSuccessReport : Report :=
  { id := "rep-1", nurse_id := "n1", patient_name := "Ali",
    patient_national_id := none, patient_file_number := "F-1",
    content := sampleWhisper.text.trim, notes := none, report_type := .VOICE,
    status := .DRAFT, is_transcribed := true,
    audio_file_path := some "uploads/audio/rep-1_20240101_000000.wav",
    audio_size := some 2048,
    audio_duration := getAudioDurationFromSegments sampleWhisper.segments,
    transcription_confidence := some (round2 (localConfidence sampleWhisper.segments)) }

end AIHospital

namespace AIHospital

/-! Helper lemmas. -/

lemma splitOnChar_cons (sep c : Char) (cs : List Char) :
    splitOnChar sep (c :: cs) =
      match splitOnChar sep cs with
      | [] => [[c]]
      | g :: gs => if c = sep then [] :: g :: gs else (c :: g) :: gs := rfl

lemma splitOnChar_ne_nil (sep : Char) (l : List Char) : splitOnChar sep l ≠ [] := by
  cases l with
  | nil => simp [splitOnChar]
  | cons c cs =>
      rw [splitOnChar_cons]
      cases h : splitOnChar sep cs with
      | nil => simp
      | cons g gs => dsimp; split <;> simp

lemma splitOnChar_of_not_mem {sep : Char} {l : List Char} (h : sep ∉ l) :
    splitOnChar sep l = [l] := by
  induction l with
  | nil => rfl
  | cons c cs ih =>
      have hc : c ≠ sep := fun hcc => h (hcc ▸ List.mem_cons_self c cs)
      have hcs : sep ∉ cs := fun hm => h (List.mem_cons_of_mem _ hm)
      rw [splitOnChar_cons, ih hcs]
      simp [hc]

lemma two_le_length_splitOnChar (sep : Char) (xs ys : List Char) :
    2 ≤ (splitOnChar sep (xs ++ sep :: ys)).length := by
  induction xs with
  | nil =>
      rw [List.nil_append, splitOnChar_cons]
      cases h : splitOnChar sep ys with
      | nil => exact absurd h (splitOnChar_ne_nil sep ys)
      | cons g gs => simp
  | cons x xs ih =>
      rw [List.cons_append, splitOnChar_cons]
      cases h : splitOnChar sep (xs ++ sep :: ys) with
      | nil => exact absurd h (splitOnChar_ne_nil sep _)
      | cons g gs =>
          rw [h] at ih
          dsimp
          split <;> simp_all

lemma getLastD_splitOnChar_append (sep : Char) (xs ys : List Char) :
    (splitOnChar sep (xs ++ sep :: ys)).getLastD [] =
      (splitOnChar sep ys).getLastD [] := by
  induction xs with
  | nil =>
      rw [List.nil_append, splitOnChar_cons]
      cases h : splitOnChar sep ys with
      | nil => exact absurd h (splitOnChar_ne_nil sep ys)
      | cons g gs => simp [List.getLastD_cons]
  | cons x xs ih =>
      rw [List.cons_append, splitOnChar_cons]
      cases h : splitOnChar sep (xs ++ sep :: ys) with
      | nil => exact absurd h (splitOnChar_ne_nil sep _)
      | cons g gs =>
          have hlen := two_le_length_splitOnChar sep xs ys
          rw [h] at hlen ih
          cases gs with
          | nil => simp at hlen
          | cons g2 gs2 =>
              dsimp
              rw [← ih]
              split <;> simp [List.getLastD_cons]

lemma round2_bounds {q : ℚ} (h0 : 0 ≤ q) (h1 : q ≤ 1) :
    0 ≤ round2 q ∧ round2 q ≤ 1 := by
  unfold round2
  set f : ℤ := ⌊q * 100⌋ with hf
  have hfle : (f : ℚ) ≤ q * 100 := Int.floor_le _
  have hflt : q * 100 < f + 1 := Int.lt_floor_add_one _
  have hf0 : (0 : ℤ) ≤ f := by
    rw [hf]; exact Int.le_floor.mpr (by push_cast; linarith)
  have hf100 : (f : ℚ) ≤ 100 := by linarith
  have hf100' : f ≤ 100 := by exact_mod_cast hf100
  have hstep : ∀ n : ℤ, 0 ≤ n → n ≤ 100 → 0 ≤ (n : ℚ)/100 ∧ (n : ℚ)/100 ≤ 1 := by
    intro n hn0 hn100
    constructor
    · positivity
    · rw [div_le_one (by norm_num)]; exact_mod_cast hn100
  dsimp only
  split
  · exact hstep f hf0 hf100'
  · have hfrac : (1 : ℚ)/2 ≤ q * 100 - f := by linarith [not_lt.mp (by assumption)]
    have h99 : f ≤ 99 := by
      by_contra hcon
      push_neg at hcon
      have : (100 : ℚ) ≤ (f : ℚ) := by exact_mod_cast hcon
      linarith
    split
    · exact hstep (f + 1) (by omega) (by omega)
    · split
      · exact hstep f hf0 hf100'
      · exact hstep (f + 1) (by omega) (by omega)

lemma localConfidence_bounds {segments : List Segment}
    (h : ∀ s ∈ segments, 0 ≤ segNoSpeech s ∧ segNoSpeech s ≤ 1) :
    0 ≤ localConfidence segments ∧ localConfidence segments ≤ 1 := by
  unfold localConfidence
  split
  · have hlen : 0 < (segments.length : ℚ) := by
      have : segments.length ≠ 0 := by assumption
      exact_mod_cast Nat.pos_of_ne_zero this
    have hsum0 : 0 ≤ (segments.map segNoSpeech).sum := by
      apply List.sum_nonneg
      intro x hx
      obtain ⟨s, hs, rfl⟩ := List.mem_map.mp hx
      exact (h s hs).1
    have hsumle : (segments.map segNoSpeech).sum ≤ (segments.length : ℚ) := by
      have := List.sum_le_card_nsmul (segments.map segNoSpeech) 1 (by
        intro x hx
        obtain ⟨s, hs, rfl⟩ := List.mem_map.mp hx
        exact (h s hs).2)
      simpa using this
    constructor
    · have : (segments.map segNoSpeech).sum / (segments.length : ℚ) ≤ 1 := by
        rw [div_le_one hlen]; exact hsumle
      linarith
    · have : 0 ≤ (segments.map segNoSpeech).sum / (segments.length : ℚ) :=
        div_nonneg hsum0 (le_of_lt hlen)
      linarith
  · norm_num

lemma get_report_by_id_filter_ne (db : ReportDB) (i : String) :
    get_report_by_id i (db.filter (fun r => r.id ≠ i)) = none := by
  unfold get_report_by_id
  rw [List.find?_eq_none]
  intro x hx
  have := (List.mem_filter.mp hx).2
  simpa using this

lemma save_audio_file_fst (uploadDir timestamp : String) (file : UploadFile)
    (reportId : String) (store : List String) :
    (save_audio_file uploadDir timestamp file reportId store).1 =
      ⟨uploadDir ++ "/" ++ savedFilename reportId timestamp file,
       file.dataSize, fileExtension file.filename⟩ := rfl

lemma save_audio_file_snd (uploadDir timestamp : String) (file : UploadFile)
    (reportId : String) (store : List String) :
    (save_audio_file uploadDir timestamp file reportId store).2 =
      store ++ [uploadDir ++ "/" ++ savedFilename reportId timestamp file] := rfl

lemma process_voice_report_validation_error {file : UploadFile} {e0 : HTTPError}
    (engine : String → EngineOutcome) (uploadDir timestamp reportId : String)
    (store : List String) (hval : validate_audio_file file = .error e0) :
    process_voice_report engine uploadDir timestamp file reportId store =
      (.error e0, store) := by
  unfold process_voice_report
  rw [hval]

lemma process_voice_report_engine_error {file : UploadFile} {msg : String}
    (engine : String → EngineOutcome) (uploadDir timestamp reportId : String)
    (store : List String)
    (hval : validate_audio_file file = .ok ())
    (heng : engine (uploadDir ++ "/" ++ savedFilename reportId timestamp file) = .err msg) :
    process_voice_report engine uploadDir timestamp file reportId store =
      (.error ⟨500, "transcription failed: " ++ msg⟩,
       store ++ [uploadDir ++ "/" ++ savedFilename reportId timestamp file]) := by
  unfold process_voice_report
  rw [hval]
  simp only [save_audio_file_fst, save_audio_file_snd]
  rw [heng]
  rfl

lemma process_voice_report_engine_ok {file : UploadFile} {wres : WhisperResult}
    (engine : String → EngineOutcome) (uploadDir timestamp reportId : String)
    (store : List String)
    (hval : validate_audio_file file = .ok ())
    (heng : engine (uploadDir ++ "/" ++ savedFilename reportId timestamp file) = .ok wres) :
    process_voice_report engine uploadDir timestamp file reportId store =
      (.ok { file_path := uploadDir ++ "/" ++ savedFilename reportId timestamp file
             file_size := file.dataSize
             file_extension := fileExtension file.filename
             transcribed_text := wres.text.trim
             confidence := round2 (localConfidence wres.segments)
             duration := getAudioDurationFromSegments wres.segments
             language := wres.language.getD "fa" },
       store ++ [uploadDir ++ "/" ++ savedFilename reportId timestamp file]) := by
  unfold process_voice_report
  rw [hval]
  simp only [save_audio_file_fst, save_audio_file_snd]
  rw [heng]
  rfl

lemma string_append_slash_ne_empty (s t : String) : s ++ "/" ++ t ≠ "" := by
  intro h
  have hlen := congrArg String.length h
  rw [String.length_append, String.length_append] at hlen
  have h1 : ("/" : String).length = 1 := rfl
  have h2 : ("" : String).length = 0 := rfl
  omega

end AIHospital

namespace AIHospital

/-! Claim theorems. -/

/-- C1: if the transcription engine raises after the tentative voice-report
row has been created and the audio file validly stored, `create_voice_report`
deletes that tentative row as its compensating action: a subsequent repository
lookup of that report identifier finds no row, and the call surfaces an
error, so no half-filled VOICE record persists. -/
theorem C1_transcription_failure_deletes_row (env : PipelineEnv) (file : UploadFile)
    (rd : VoiceReportCreate) (user : User) (db : ReportDB) (store : List String)
    (msg : String)
    (hval : validate_audio_file file = .ok ())
    (heng : env.engine (env.uploadDir ++ "/" ++
              savedFilename env.freshId env.timestamp file) = .err msg) :
    get_report_by_id env.freshId (create_voice_report env file rd user db store).2.1 = none ∧
    (create_voice_report env file rd user db store).1 =
      .error ⟨500, "voice processing failed: " ++ ("transcription failed: " ++ msg)⟩ := by
  have hproc := process_voice_report_engine_error env.engine env.uploadDir env.timestamp
    env.freshId store hval heng
  simp only [create_voice_report, tentativeReport]
  rw [hproc]
  exact ⟨get_report_by_id_filter_ne _ _, rfl⟩

/-- Witness for C1 at a concrete run: a valid wav upload, an engine that
raises, an empty initial database. -/
theorem C1_witness :
    get_report_by_id "rep-1"
      (create_voice_report sampleEnvErr sampleUpload sampleVoiceCreate sampleNurse [] []).2.1 =
      none ∧
    (create_voice_report sampleEnvErr sampleUpload sampleVoiceCreate sampleNurse [] []).1 =
      .error ⟨500, "voice processing failed: " ++ ("transcription failed: " ++ "boom")⟩ :=
  C1_transcription_failure_deletes_row sampleEnvErr sampleUpload sampleVoiceCreate
    sampleNurse [] [] "boom" rfl rfl

/-- C2 counterexample: on an upload with a disallowed extension, the caller
does not receive the validation error itself (HTTP 400 invalid format) but a
wrapped HTTP 500 error. -/
theorem C2_counterexample :
    (create_voice_report sampleEnvErr sampleTxtUpload sampleVoiceCreate sampleNurse [] []).1 =
      .error ⟨500, "voice processing failed: invalid audio format"⟩ ∧
    (500 : Nat) ≠ 400 :=
  ⟨rfl, by decide⟩

/-- C2 (amended): when validation rejects the upload, `create_voice_report`
deletes the tentative row and creates no file, but surfaces the validation
error wrapped in a single HTTP 500 "voice processing failed" error embedding
the original detail, rather than the validation error itself. -/
theorem C2_validation_error_wrapped (env : PipelineEnv) (file : UploadFile)
    (rd : VoiceReportCreate) (user : User) (db : ReportDB) (store : List String)
    (e0 : HTTPError)
    (hval : validate_audio_file file = .error e0) :
    (create_voice_report env file rd user db store).1 =
      .error ⟨500, "voice processing failed: " ++ e0.detail⟩ ∧
    get_report_by_id env.freshId (create_voice_report env file rd user db store).2.1 = none ∧
    (create_voice_report env file rd user db store).2.2 = store := by
  have hproc := process_voice_report_validation_error env.engine env.uploadDir env.timestamp
    env.freshId store hval
  simp only [create_voice_report, tentativeReport]
  rw [hproc]
  exact ⟨rfl, get_report_by_id_filter_ne _ _, rfl⟩

/-- Witness for C2 (amended) at a concrete run: a txt upload is rejected, the
row is gone, the store is untouched. -/
theorem C2_witness :
    (create_voice_report sampleEnvErr sampleTxtUpload sampleVoiceCreate sampleNurse [] []).1 =
      .error ⟨500, "voice processing failed: " ++
        (HTTPError.mk 400 "invalid audio format").detail⟩ ∧
    get_report_by_id "rep-1"
      (create_voice_report sampleEnvErr sampleTxtUpload sampleVoiceCreate
        sampleNurse [] []).2.1 = none ∧
    (create_voice_report sampleEnvErr sampleTxtUpload sampleVoiceCreate
        sampleNurse [] []).2.2 = [] :=
  C2_validation_error_wrapped sampleEnvErr sampleTxtUpload sampleVoiceCreate sampleNurse
    [] [] ⟨400, "invalid audio format"⟩ rfl

/-- C3: every successful run of the voice pipeline returns a record with
`is_transcribed = true`, a non-empty `audio_file_path`, and a transcription
confidence inside [0,1] — granted that the engine's `no_speech_prob` values
are themselves probabilities in [0,1]. -/
theorem C3_success_roundtrip (env : PipelineEnv) (file : UploadFile)
    (rd : VoiceReportCreate) (user : User) (db : ReportDB) (store : List String)
    (r : Report)
    (hprob : ∀ path res, env.engine path = .ok res →
       ∀ s ∈ res.segments, ∀ p, s.no_speech_prob = some p → 0 ≤ p ∧ p ≤ 1)
    (hok : (create_voice_report env file rd user db store).1 = .ok r) :
    r.is_transcribed = true ∧
    (∃ pth, r.audio_file_path = some pth ∧ pth ≠ "") ∧
    (∃ c, r.transcription_confidence = some c ∧ 0 ≤ c ∧ c ≤ 1) := by
  cases hval : validate_audio_file file with
  | error e0 =>
      have hproc := process_voice_report_validation_error env.engine env.uploadDir
        env.timestamp env.freshId store hval
      simp only [create_voice_report, tentativeReport] at hok
      rw [hproc] at hok
      simp at hok
  | ok u =>
      cases u
      cases heng : env.engine (env.uploadDir ++ "/" ++
          savedFilename env.freshId env.timestamp file) with
      | err msg =>
          have hproc := process_voice_report_engine_error env.engine env.uploadDir
            env.timestamp env.freshId store hval heng
          simp only [create_voice_report, tentativeReport] at hok
          rw [hproc] at hok
          simp at hok
      | ok wres =>
          have hproc := process_voice_report_engine_ok env.engine env.uploadDir
            env.timestamp env.freshId store hval heng
          simp only [create_voice_report, tentativeReport] at hok
          rw [hproc] at hok
          simp only [Except.ok.injEq] at hok
          subst hok
          refine ⟨rfl, ⟨_, rfl, string_append_slash_ne_empty _ _⟩, ⟨_, rfl, ?_⟩⟩
          have hseg : ∀ s ∈ wres.segments, 0 ≤ segNoSpeech s ∧ segNoSpeech s ≤ 1 := by
            intro s hs
            unfold segNoSpeech
            cases hnp : s.no_speech_prob with
            | none => norm_num
            | some p => simpa using hprob _ _ heng s hs p hnp
          have hlc := localConfidence_bounds hseg
          exact round2_bounds hlc.1 hlc.2

end AIHospital

namespace AIHospital

/-- Witness for C3 at a concrete successful run of the pipeline. -/
theorem C3_witness :
    sampleSuccessReport.is_transcribed = true ∧
    (∃ pth, sampleSuccessReport.audio_file_path = some pth ∧ pth ≠ "") ∧
    (∃ c, sampleSuccessReport.transcription_confidence = some c ∧ 0 ≤ c ∧ c ≤ 1) :=
  C3_success_roundtrip sampleEnvOk sampleUpload sampleVoiceCreate sampleNurse [] []
    sampleSuccessReport
    (by
      intro path res h s hs p hp
      have h' : EngineOutcome.ok sampleWhisper = .ok res := h
      injection h' with h''
      subst h''
      simp only [sampleWhisper, List.mem_singleton] at hs
      subst hs
      simp only [Option.some.injEq] at hp
      subst hp
      norm_num)
    rfl

end AIHospital

namespace AIHospital

/-- C10: `update_report` applies every field present in the payload verbatim,
including `status` — for every current status and every requested status,
with no lifecycle-order check — and the only enforced precondition is
ownership (authoring nurse or admin), whose violation yields HTTP 403. -/
theorem C10_update_applies_fields (reportId : String) (u : ReportUpdate)
    (user : User) (db : ReportDB) (r : Report)
    (hfind : get_report_by_id reportId db = some r) :
    (r.nurse_id = user.id ∨ user.is_admin = true →
       update_report reportId u user db =
         .ok (applyUpdate r u,
              db.map (fun x => if x.id = reportId then applyUpdate r u else x)) ∧
       (applyUpdate r u).status = u.status.getD r.status ∧
       (applyUpdate r u).content = u.content.getD r.content ∧
       (applyUpdate r u).patient_name = u.patient_name.getD r.patient_name ∧
       (applyUpdate r u).patient_file_number =
         u.patient_file_number.getD r.patient_file_number ∧
       (applyUpdate r u).id = r.id ∧
       (applyUpdate r u).nurse_id = r.nurse_id) ∧
    (r.nurse_id ≠ user.id ∧ user.is_admin = false →
       update_report reportId u user db =
         .error ⟨403, "not allowed to edit this report"⟩) := by
  constructor
  · intro hauth
    have hcond : ¬(r.nurse_id ≠ user.id ∧ user.is_admin = false) := by
      rcases hauth with h | h
      · exact fun hc => hc.1 h
      · intro hc
        rw [h] at hc
        simp at hc
    refine ⟨?_, rfl, rfl, rfl, rfl, rfl, rfl⟩
    unfold update_report
    rw [hfind]
    show (if r.nurse_id ≠ user.id ∧ user.is_admin = false then
            Except.error (HTTPError.mk 403 "not allowed to edit this report")
          else
            Except.ok (applyUpdate r u,
              db.map (fun x => if x.id = reportId then applyUpdate r u else x))) = _
    rw [if_neg hcond]
  · intro hdeny
    unfold update_report
    rw [hfind]
    show (if r.nurse_id ≠ user.id ∧ user.is_admin = false then
            Except.error (HTTPError.mk 403 "not allowed to edit this report")
          else
            Except.ok (applyUpdate r u,
              db.map (fun x => if x.id = reportId then applyUpdate r u else x))) = _
    rw [if_pos hdeny]

/-- Witness for C10 at a concrete backward transition ARCHIVED → DRAFT and a
concrete foreign non-admin caller. -/
theorem C10_witness :
    update_report "r1" sampleStatusUpdate sampleNurse [sampleArchived] =
      .ok (applyUpdate sampleArchived sampleStatusUpdate,
           [sampleArchived].map (fun x =>
              if x.id = "r1" then applyUpdate sampleArchived sampleStatusUpdate else x)) ∧
    (applyUpdate sampleArchived sampleStatusUpdate).status = ReportStatus.DRAFT ∧
    sampleArchived.status = ReportStatus.ARCHIVED ∧
    update_report "r1" sampleStatusUpdate ⟨"other", false⟩ [sampleArchived] =
      .error ⟨403, "not allowed to edit this report"⟩ := by
  have h1 := (C10_update_applies_fields "r1" sampleStatusUpdate sampleNurse
      [sampleArchived] sampleArchived rfl).1 (Or.inl rfl)
  have h2 := (C10_update_applies_fields "r1" sampleStatusUpdate ⟨"other", false⟩
      [sampleArchived] sampleArchived rfl).2 ⟨by decide, rfl⟩
  exact ⟨h1.1, by rw [h1.2.1]; rfl, rfl, h2⟩

end AIHospital

namespace AIHospital

/-- C4: the remote-variant confidence estimator returns 0.5 for every text
shorter than 10 characters, and for longer texts the mean of the length score
and the word score clamped to [0.70, 0.98]; in particular, a 100-character,
20-word text scores 0.98. -/
theorem C4_remote_estimate (text : String) :
    (text.length < 10 → estimate text = 1/2) ∧
    (10 ≤ text.length →
      estimate text =
        min (max ((min ((text.length : ℚ) / 100) 1 +
          min ((wordCount text : ℚ) / 20) 1) / 2) (70/100)) (98/100)) ∧
    estimate (String.join (List.replicate 20 "abcd ")) = 49/50 := by
  refine ⟨fun h => ?_, fun h => ?_, ?_⟩
  · simp [estimate, h]
  · simp [estimate, Nat.not_lt.mpr h]
  · have hlen : (String.join (List.replicate 20 "abcd ")).length = 100 := by decide
    have hwc : wordCount (String.join (List.replicate 20 "abcd ")) = 20 := by decide
    simp only [estimate, hlen, hwc]
    norm_num

/-- Witness for C4: the estimator's published examples — empty text and a
5-character text score 0.5, the 100-character 20-word text scores 0.98. -/
theorem C4_witness :
    estimate "" = 1/2 ∧ estimate "aaaaa" = 1/2 ∧
    estimate (String.join (List.replicate 20 "abcd ")) = 49/50 :=
  ⟨(C4_remote_estimate "").1 (by decide), (C4_remote_estimate "aaaaa").1 (by decide),
   (C4_remote_estimate "").2.2⟩

/-- C5 counterexample: on a single segment with `no_speech_prob = 0.333` the
reported confidence is the two-decimal rounding 0.67, which differs from
1 − mean(no_speech_prob) = 0.667 — so the claim's exact equality fails. -/
theorem C5_counterexample :
    (transcribe_audio
        (.ok ⟨"some words here", some "fa", [⟨some (333/1000), some 1⟩]⟩)
        "fa").toOption.map TranscriptionOutput.confidence = some (67/100) ∧
    (67/100 : ℚ) ≠ 1 - 333/1000 := by
  constructor
  · show some (round2 (localConfidence [⟨some (333/1000), some 1⟩])) = _
    have h1 : localConfidence [⟨some (333/1000), some 1⟩] = 667/1000 := by
      simp [localConfidence, segNoSpeech]
      norm_num
    rw [h1]
    simp only [round2]
    norm_num
  · norm_num

/-- C5 (amended): in the local variant the reported confidence equals the
two-decimal rounding of 1 − mean(no_speech_prob over the segments) for a
non-empty segment list, and 0.8 for an empty one. -/
theorem C5_local_confidence (r : WhisperResult) (lang : String) :
    (transcribe_audio (.ok r) lang).toOption.map TranscriptionOutput.confidence =
      some (if r.segments.length ≠ 0 then
              round2 (1 - (r.segments.map segNoSpeech).sum / (r.segments.length : ℚ))
            else 4/5) := by
  show some (round2 (localConfidence r.segments)) = _
  unfold localConfidence
  split
  · rfl
  · simp only [round2]
    norm_num

/-- C8 counterexample: for a non-empty segment list whose last segment has
end-timestamp 0, the reported duration is `None`, not the rounded
end-timestamp `0`. -/
theorem C8_counterexample :
    (transcribe_audio (.ok ⟨"tx", some "fa", [⟨some (1/10), some 0⟩]⟩)
        "fa").toOption.map TranscriptionOutput.duration = some none ∧
    (none : Option ℚ) ≠ some (round2 0) := by
  constructor
  · show some (getAudioDurationFromSegments [⟨some (1/10), some 0⟩]) = some none
    simp [getAudioDurationFromSegments]
  · simp

/-- C8 (amended): in the local variant, for every transcription result whose
last segment carries a nonzero end-timestamp, the reported duration is that
end-timestamp rounded to two decimals. -/
theorem C8_duration (r : WhisperResult) (lang : String) (last : Segment)
    (hlast : r.segments.getLast? = some last)
    (hnz : last.endTime.getD 0 ≠ 0) :
    (transcribe_audio (.ok r) lang).toOption.map TranscriptionOutput.duration =
      some (some (round2 (last.endTime.getD 0))) := by
  show some (getAudioDurationFromSegments r.segments) = _
  unfold getAudioDurationFromSegments
  rw [hlast]
  simp [hnz]

/-- Witness for C8 (amended) at a concrete one-segment result ending at 1.5
seconds. -/
theorem C8_duration_witness :
    (transcribe_audio (.ok ⟨"t", none, [⟨some (1/10), some (3/2)⟩]⟩)
        "fa").toOption.map TranscriptionOutput.duration =
      some (some (round2 ((Option.getD (some ((3:ℚ)/2)) 0 : ℚ)))) :=
  C8_duration ⟨"t", none, [⟨some (1/10), some (3/2)⟩]⟩ "fa" ⟨some (1/10), some (3/2)⟩
    rfl (by norm_num)

end AIHospital

namespace AIHospital

/-- C6 counterexample: a file with the allowed extension `wav` but a declared
size above the maximum does not pass `validate` — it fails with the size
error — so "validate succeeds for every file with an allowed extension" is
false as stated. -/
theorem C6_counterexample :
    fileExtension "a.wav" ∈ ALLOWED_FORMATS ∧
    validate_audio_file ⟨"a.wav", some (MAX_FILE_SIZE + 1), 0⟩ =
      .error ⟨400, "file too large"⟩ ∧
    (Except.error ⟨400, "file too large"⟩ : Except HTTPError Unit) ≠ .ok () := by
  refine ⟨by decide, rfl, fun h => by cases h⟩

/-- C6 (amended): `validate` succeeds for every file whose extension is in
the allow-set (case-insensitive) and whose declared size does not exceed the
maximum, and fails with the format error for every file with any other
extension. -/
theorem C6_format_validation (file : UploadFile) :
    (fileExtension file.filename ∈ ALLOWED_FORMATS ∧
       (∀ sz, file.size = some sz → sz ≤ MAX_FILE_SIZE) →
     validate_audio_file file = .ok ()) ∧
    (fileExtension file.filename ∉ ALLOWED_FORMATS →
     validate_audio_file file = .error ⟨400, "invalid audio format"⟩) := by
  constructor
  · rintro ⟨hmem, hsz⟩
    have hnotnot : ¬ fileExtension file.filename ∉ ALLOWED_FORMATS := not_not_intro hmem
    have hsize : ¬ (file.size.getD 0 ≠ 0 ∧ file.size.getD 0 > MAX_FILE_SIZE) := by
      cases hs : file.size with
      | none => simp
      | some sz =>
          have := hsz sz hs
          simp only [hs, Option.getD_some]
          omega
    unfold validate_audio_file
    rw [if_neg hnotnot, if_neg hsize]
  · intro h
    unfold validate_audio_file
    rw [if_pos h]

/-- Witness for C6 (amended): an uppercase allowed extension with unknown
size passes; a txt file fails with the format error. -/
theorem C6_witness :
    validate_audio_file ⟨"A.WAV", none, 0⟩ = .ok () ∧
    validate_audio_file ⟨"notes.txt", some 5, 5⟩ =
      .error ⟨400, "invalid audio format"⟩ :=
  ⟨(C6_format_validation ⟨"A.WAV", none, 0⟩).1 ⟨by decide, by intro sz h; cases h⟩,
   (C6_format_validation ⟨"notes.txt", some 5, 5⟩).2 (by decide)⟩

/-- C7 counterexample: an upload whose declared size exceeds the maximum but
whose extension is disallowed fails with the format error, not the size
error — so "validate fails with FileTooLarge for every oversized upload" is
false as stated. -/
theorem C7_counterexample :
    MAX_FILE_SIZE < MAX_FILE_SIZE + 1 ∧
    validate_audio_file ⟨"notes.txt", some (MAX_FILE_SIZE + 1), 0⟩ =
      .error ⟨400, "invalid audio format"⟩ ∧
    (HTTPError.mk 400 "invalid audio format") ≠ ⟨400, "file too large"⟩ := by
  refine ⟨by omega, rfl, by decide⟩

/-- C7 (amended): for uploads whose extension passes format validation,
`validate` fails with the size error exactly when the declared size exceeds
the maximum, succeeds when the declared size is at or below the maximum, and
skips the size check when the size is not knowable. -/
theorem C7_size_validation (file : UploadFile)
    (hfmt : fileExtension file.filename ∈ ALLOWED_FORMATS) :
    (∀ sz, file.size = some sz → MAX_FILE_SIZE < sz →
       validate_audio_file file = .error ⟨400, "file too large"⟩) ∧
    (∀ sz, file.size = some sz → sz ≤ MAX_FILE_SIZE →
       validate_audio_file file = .ok ()) ∧
    (file.size = none → validate_audio_file file = .ok ()) := by
  have hnotnot : ¬ fileExtension file.filename ∉ ALLOWED_FORMATS := not_not_intro hfmt
  refine ⟨fun sz hs hgt => ?_, fun sz hs hle => ?_, fun hs => ?_⟩
  · unfold validate_audio_file
    rw [hs, if_neg hnotnot]
    simp only [Option.getD_some]
    rw [if_pos (show sz ≠ 0 ∧ sz > MAX_FILE_SIZE from ⟨by omega, hgt⟩)]
  · unfold validate_audio_file
    rw [hs, if_neg hnotnot]
    simp only [Option.getD_some]
    rw [if_neg (show ¬(sz ≠ 0 ∧ sz > MAX_FILE_SIZE) by omega)]
  · unfold validate_audio_file
    rw [hs, if_neg hnotnot]
    simp only [Option.getD_none]
    rw [if_neg (show ¬((0:ℕ) ≠ 0 ∧ 0 > MAX_FILE_SIZE) by omega)]

/-- Witness for C7 (amended) at three concrete wav uploads: oversized,
within the limit, and of unknown size. -/
theorem C7_witness :
    validate_audio_file ⟨"big.wav", some (MAX_FILE_SIZE + 1), 0⟩ =
      .error ⟨400, "file too large"⟩ ∧
    validate_audio_file ⟨"ok.wav", some 1024, 1024⟩ = .ok () ∧
    validate_audio_file ⟨"stream.wav", none, 0⟩ = .ok () :=
  ⟨(C7_size_validation ⟨"big.wav", some (MAX_FILE_SIZE + 1), 0⟩ (by decide)).1
      (MAX_FILE_SIZE + 1) rfl (by omega),
   (C7_size_validation ⟨"ok.wav", some 1024, 1024⟩ (by decide)).2.1 1024 rfl (by decide),
   (C7_size_validation ⟨"stream.wav", none, 0⟩ (by decide)).2.2 rfl⟩

/-- C9: `validate_audio_file` takes the substring after the last dot of the
filename as the extension, uses the entire filename when it contains no dot,
and consequently a bare filename `mp3` passes format validation. -/
theorem C9_extension_rule (name stem ext : List Char) :
    ('.' ∉ ext →
       fileExtension (String.mk (stem ++ '.' :: ext)) =
         String.mk (ext.map Char.toLower)) ∧
    ('.' ∉ name →
       fileExtension (String.mk name) = String.mk (name.map Char.toLower)) ∧
    validate_audio_file ⟨"mp3", none, 0⟩ = .ok () := by
  refine ⟨fun hext => ?_, fun hname => ?_, rfl⟩
  · show String.mk (((splitOnChar '.' (stem ++ '.' :: ext)).getLastD []).map Char.toLower) = _
    rw [getLastD_splitOnChar_append, splitOnChar_of_not_mem hext]
    rfl
  · show String.mk (((splitOnChar '.' name).getLastD []).map Char.toLower) = _
    rw [splitOnChar_of_not_mem hname]
    rfl

/-- Witness for C9: the extension of `v.wav` is `wav`, a dotless name is its
own extension, and the bare filename `mp3` passes validation. -/
theorem C9_witness :
    fileExtension (String.mk (['v'] ++ '.' :: ['w', 'a', 'v'])) =
      String.mk (['w', 'a', 'v'].map Char.toLower) ∧
    fileExtension (String.mk ['m', 'p', '3']) =
      String.mk (['m', 'p', '3'].map Char.toLower) ∧
    validate_audio_file ⟨"mp3", none, 0⟩ = .ok () :=
  ⟨(C9_extension_rule ['m', 'p', '3'] ['v'] ['w', 'a', 'v']).1 (by decide),
   (C9_extension_rule ['m', 'p', '3'] ['v'] ['w', 'a', 'v']).2.1 (by decide),
   (C9_extension_rule ['m', 'p', '3'] ['v'] ['w', 'a', 'v']).2.2⟩

end AIHospital
